import Mathlib

/-!
Shallow embedding of the SkisPlace visual-preview widget
(`src/apps/widget/src/main.ts`, with the error-overlay dismiss handler taken
from the earlier revision `src/unnamed/part_001` whose body the current file
elides with a "kept same" comment).

Modelling conventions:
* The canvas pixel buffer (`ImageData`) is modelled as `Bitmap := List Nat`;
  `state.maskEdit.canvas` / `ctx` (always set together) become a single
  `canvas : Option Bitmap` holding the current canvas contents.
* Network calls are modelled by a `FetchResult` value describing the outcome
  the `fetch` promise delivered: a transport-level error (the `catch` path),
  or a response with an HTTP status and a body that either parses (`Except.ok`)
  or throws during `res.json()` (`Except.error msg`).
* JavaScript `null`/`undefined` string fields become `Option String`;
  the module-level variable `uploadedImageId` (main.ts line 74) is carried as
  a field of `WidgetState` next to the fields of the `state` literal.
* DOM re-rendering (`render()`) has no effect on the modelled state and is
  dropped; `toDataURL` serialization of the canvas is elided by storing the
  bitmap itself in `customMaskData`.
-/

/-- Pixel contents of a canvas (`ImageData` byte buffer). -/
abbrev Bitmap := List Nat

/-- Wizard steps, from the union type of `state.step` (main.ts line 106). -/
inductive Step where
  | upload
  | systems
  | styles
  | rendering
  | result
deriving DecidableEq, Repr, BEq

/-- Brush mode of the mask editor (`state.maskEdit.mode`, main.ts line 120). -/
inductive BrushMode where
  | add
  | remove
deriving DecidableEq, Repr

/-- Finish tuning value (`state.tuning.finish`, main.ts line 130). -/
inductive Finish where
  | gloss
  | satin
  | matte
deriving DecidableEq, Repr

/-- The `state.tuning` record (main.ts lines 128-131). -/
structure Tuning where
  blend_strength : ℚ
  finish : Finish
deriving DecidableEq, Repr

/-- A style catalog entry (the `EpoxyStyle` interface, main.ts lines 4-9). -/
structure EpoxyStyle where
  id : String
  name : String
  category : String
  cover_image_url : Option String
deriving DecidableEq, Repr

/-- Fields of the `/epoxy/preview` response body read by the widget
(main.ts lines 860-866, 386-438); display-only debug fields such as
`camera_geometry` and `mask_stats` are elided since no modelled state
transition reads them. -/
structure RenderPayload where
  result_url : String
  mask_url : Option String
  mask_source : Option String
deriving DecidableEq, Repr

/-- Outcome of one `fetch` call as observed by the widget code: a
transport-level failure carrying the thrown message, or an HTTP response
with a status code and a body that either parses or throws in `res.json()`. -/
inductive FetchResult (α : Type) where
  | netError (msg : String)
  | response (status : Nat) (body : Except String α)

/-- The `res.ok` predicate of the Fetch API: status in [200, 299]. -/
def isOk (status : Nat) : Bool :=
  decide (200 ≤ status) && decide (status < 300)

/-- The `state.maskEdit` record (main.ts lines 118-127). `canvas` and `ctx`
are modelled together as the optional current pixel contents of the editing
canvas. -/
structure MaskEditState where
  enabled : Bool
  mode : BrushMode
  brushSize : Int
  canvas : Option Bitmap
  history : List Bitmap
  historyIndex : Int
  customMaskData : Option Bitmap
deriving DecidableEq, Repr

/-- Initial value of `state.maskEdit` (main.ts lines 118-127). -/
def initialMaskEdit : MaskEditState :=
  { enabled := false
    mode := BrushMode.add
    brushSize := 30
    canvas := none
    history := []
    historyIndex := -1
    customMaskData := none }

/-- JavaScript array indexing `history[i]` with an `Int` index; in every
reachable state the index is within bounds, so the default is never hit. -/
def historyAt (h : List Bitmap) (i : Int) : Bitmap :=
  h.getD i.toNat []

/-- The `saveToHistory` function (main.ts lines 709-720): guard on the canvas
existing, read the current pixels, truncate the history after `historyIndex`
(`slice(0, historyIndex + 1)`), append the snapshot, and point `historyIndex`
at the new last entry. -/
def saveToHistory (m : MaskEditState) : MaskEditState :=
  match m.canvas with
  | none => m
  | some bmp =>
    let hist := m.history.take (m.historyIndex + 1).toNat ++ [bmp]
    { m with history := hist, historyIndex := (hist.length : Int) - 1 }

/-- The `undoMaskEdit` function (main.ts lines 722-728): when
`historyIndex > 0` and a drawing context exists, decrement the index and
restore that snapshot onto the canvas (`putImageData`). -/
def undoMaskEdit (m : MaskEditState) : MaskEditState :=
  if 0 < m.historyIndex ∧ m.canvas.isSome then
    { m with
      historyIndex := m.historyIndex - 1
      canvas := some (historyAt m.history (m.historyIndex - 1)) }
  else m

/-- The `redoMaskEdit` function (main.ts lines 730-736): when
`historyIndex < history.length - 1` and a drawing context exists, increment
the index and restore that snapshot onto the canvas. -/
def redoMaskEdit (m : MaskEditState) : MaskEditState :=
  if m.historyIndex < (m.history.length : Int) - 1 ∧ m.canvas.isSome then
    { m with
      historyIndex := m.historyIndex + 1
      canvas := some (historyAt m.history (m.historyIndex + 1)) }
  else m

/-- One completed stroke (mousedown … mouseup, main.ts lines 672-680):
the brush stamps mutate the canvas contents — abstracted as an arbitrary
function `f` on the bitmap — and `mouseup` calls `saveToHistory`. -/
def strokeOp (f : Bitmap → Bitmap) (m : MaskEditState) : MaskEditState :=
  saveToHistory { m with canvas := m.canvas.map f }

/-- The `resetMaskToAuto` function (main.ts lines 738-750): guard on the
canvas existing (and `maskUrl`, implied by `src` being available), redraw the
source mask over the whole canvas, and snapshot. -/
def resetMaskToAuto (src : Bitmap) (m : MaskEditState) : MaskEditState :=
  match m.canvas with
  | none => m
  | some _ => saveToHistory { m with canvas := some src }

/-- The `initMaskEditor` seeding (main.ts lines 613-659): a canvas at the
base image's natural resolution is installed and filled with the server mask
(or all white); its contents are `bmp` here. The seeded contents are then
snapshotted via `saveToHistory`. -/
def initMaskEditor (bmp : Bitmap) (m : MaskEditState) : MaskEditState :=
  saveToHistory { m with canvas := some bmp }

/-- One mask-editor operation, for stating history invariants. -/
inductive EditOp where
  | enable (bmp : Bitmap)
  | stroke (f : Bitmap → Bitmap)
  | undo
  | redo
  | reset (src : Bitmap)

/-- Dispatch of a mask-editor operation to the corresponding handler. -/
def applyEditOp : EditOp → MaskEditState → MaskEditState
  | EditOp.enable bmp, m => initMaskEditor bmp m
  | EditOp.stroke f, m => strokeOp f m
  | EditOp.undo, m => undoMaskEdit m
  | EditOp.redo, m => redoMaskEdit m
  | EditOp.reset src, m => resetMaskToAuto src m

/-- Run a sequence of mask-editor operations. -/
def runEditOps : List EditOp → MaskEditState → MaskEditState
  | [], m => m
  | op :: ops, m => runEditOps ops (applyEditOp op m)

/-- Run a sequence of completed strokes. -/
def runStrokes : List (Bitmap → Bitmap) → MaskEditState → MaskEditState
  | [], m => m
  | f :: fs, m => runStrokes fs (strokeOp f m)

/-- Apply a list of stroke functions to a bitmap, left to right. -/
def applyAll : List (Bitmap → Bitmap) → Bitmap → Bitmap
  | [], b => b
  | f :: fs, b => applyAll fs (f b)

/-- Snapshots produced by a stroke sequence starting from bitmap `b`:
the seed `b` followed by each successive stroke result. -/
def snapList (b : Bitmap) : List (Bitmap → Bitmap) → List Bitmap
  | [] => [b]
  | f :: fs => b :: snapList (f b) fs

/-- The brush-radius setter: the `sp-brush-size` range input carries
`min="5" max="80"` (main.ts line 505) and the DOM clamps the range input's
value into that interval; the `oninput` handler (main.ts lines 556-561)
stores `parseInt(slider.value)` into `state.maskEdit.brushSize`. -/
def setBrushRadius (r : Int) (m : MaskEditState) : MaskEditState :=
  { m with brushSize := max 5 (min 80 r) }

/-- A DOM rectangle as returned by `getBoundingClientRect`. -/
structure DomRect where
  left : ℚ
  top : ℚ
  width : ℚ
  height : ℚ

/-- The `draw` handler (main.ts lines 682-689): scale factors are recomputed
from the live bounding rectangle on every call, and the client coordinates
are mapped into bitmap space. Returns the bitmap-space point passed to
`brush`. -/
def draw (canvasWidth canvasHeight : ℚ) (rect : DomRect)
    (clientX clientY : ℚ) : ℚ × ℚ :=
  let scaleX := canvasWidth / rect.width
  let scaleY := canvasHeight / rect.height
  ((clientX - rect.left) * scaleX, (clientY - rect.top) * scaleY)

/-- The `drawTouch` handler (main.ts lines 691-699), identical mapping
applied to the first touch point's client coordinates. -/
def drawTouch (canvasWidth canvasHeight : ℚ) (rect : DomRect)
    (touchClientX touchClientY : ℚ) : ℚ × ℚ :=
  let scaleX := canvasWidth / rect.width
  let scaleY := canvasHeight / rect.height
  ((touchClientX - rect.left) * scaleX, (touchClientY - rect.top) * scaleY)

/-- The widget's mutable state: the fields of the `state` literal
(main.ts lines 105-132) plus the module-level variable `uploadedImageId`
(main.ts line 74), which lives alongside `state` in the `initWidget`
closure. `uploadedImage` and `uploadedImageUrl` hold opaque references to
the selected `File` and its object URL. -/
structure WidgetState where
  step : Step
  uploadedImage : Option String
  uploadedImageUrl : Option String
  loadingStyles : Bool
  styles : List EpoxyStyle
  selectedStyleId : Option String
  selectedSystem : Option String
  resultUrl : Option String
  maskUrl : Option String
  debugData : Option RenderPayload
  error : Option String
  maskEdit : MaskEditState
  tuning : Tuning
  uploadedImageId : Option String
deriving DecidableEq, Repr

/-- Initial widget state (main.ts lines 74, 105-132). -/
def initState : WidgetState :=
  { step := Step.upload
    uploadedImage := none
    uploadedImageUrl := none
    loadingStyles := false
    styles := []
    selectedStyleId := none
    selectedSystem := none
    resultUrl := none
    maskUrl := none
    debugData := none
    error := none
    maskEdit := initialMaskEdit
    tuning := { blend_strength := 17 / 20, finish := Finish.satin }
    uploadedImageId := none }

/-- JavaScript `e.message || fallback` for the render error path
(main.ts line 872). -/
def errMessageOr (m : String) : String :=
  if m = "" then "Error generating preview" else m

/-- The user message stored on a 401 style-fetch response
(main.ts line 778). -/
def unauthorizedMessage : String :=
  "Preview token expired — please reopen from dashboard"

/-- The user message stored on any other non-2xx style-fetch response
(main.ts line 781). -/
def styleFetchFailMsg (status : Nat) : String :=
  "Failed to load styles (" ++ toString status ++ ")"

/-- The `loadStyles` function (main.ts lines 763-790): sets the loading
flag, performs the catalog fetch, stores the parsed style list on success,
a dedicated message on 401, a status-tagged message on other non-2xx
statuses, and a network-error message when the fetch or `res.json()` throws;
the `finally` block clears the loading flag. The `!apiKey` early return
cannot fire: `initWidget` aborts before creating any handlers when the key
is absent (main.ts lines 68-71). -/
def loadStyles (resp : FetchResult (List EpoxyStyle)) (s : WidgetState) :
    WidgetState :=
  let s := { s with loadingStyles := true }
  let s :=
    match resp with
    | FetchResult.netError _ =>
      { s with error := some "Network error loading styles" }
    | FetchResult.response status body =>
      if isOk status then
        match body with
        | Except.ok styles => { s with styles := styles }
        | Except.error _ =>
          { s with error := some "Network error loading styles" }
      else if status = 401 then { s with error := some unauthorizedMessage }
      else { s with error := some (styleFetchFailMsg status) }
  { s with loadingStyles := false }

/-- The error-overlay dismiss handler ('Try Again', `src/unnamed/part_001`
lines 88-98; the current main.ts keeps this overlay body unchanged behind a
"kept same" comment at line 147): clear the error and return to Upload. -/
def dismissError (s : WidgetState) : WidgetState :=
  { s with error := none, step := Step.upload }

/-- The `selectStyle` function (main.ts lines 792-795). -/
def selectStyle (id : String) (s : WidgetState) : WidgetState :=
  { s with selectedStyleId := some id }

/-- A system card's click handler (main.ts lines 236-240). -/
def selectSystem (sys : String) (s : WidgetState) : WidgetState :=
  { s with selectedSystem := some sys, step := Step.styles }

/-- The `handleFileSelect` function (main.ts lines 173-201): record the file
and its object URL, advance optimistically to the systems step, then apply
the asynchronous upload outcome: on a 2xx response whose body parses, store
the server-issued identifier; otherwise set the 'Upload failed' error. The
`loadStyles()` call it triggers is a separate asynchronous event, modelled
as its own operation. -/
def handleFileSelect (file fileUrl : String) (uploadResp : FetchResult String)
    (s : WidgetState) : WidgetState :=
  let s := { s with
    uploadedImage := some file
    uploadedImageUrl := some fileUrl
    step := Step.systems }
  match uploadResp with
  | FetchResult.netError _ => { s with error := some "Upload failed" }
  | FetchResult.response status body =>
    if isOk status then
      match body with
      | Except.ok uid => { s with uploadedImageId := some uid }
      | Except.error _ => { s with error := some "Upload failed" }
    else { s with error := some "Upload failed" }

/-- The `performRender` function (main.ts lines 797-875). It first moves the
step to `rendering` unconditionally, then: with no upload identifier the
guard throws ('Upload incomplete. Please wait.') before any request is
issued; otherwise exactly one `/epoxy/preview` request is submitted and the
outcome handled — a non-2xx status throws 'Render failed', a body-parse
failure or transport failure is caught with its message, and on success the
result URL is stored, the mask URL and debug payload are captured only in
debug mode, and the step advances to `result`. The returned `Nat` counts
render requests submitted. -/
def performRender (debugMode : Bool) (resp : FetchResult RenderPayload)
    (s : WidgetState) : WidgetState × Nat :=
  let s := { s with step := Step.rendering }
  match s.uploadedImageId with
  | none => ({ s with error := some "Upload incomplete. Please wait." }, 0)
  | some _ =>
    match resp with
    | FetchResult.netError m =>
      ({ s with error := some (errMessageOr m) }, 1)
    | FetchResult.response status body =>
      if isOk status then
        match body with
        | Except.error m => ({ s with error := some (errMessageOr m) }, 1)
        | Except.ok payload =>
          let s := { s with resultUrl := some payload.result_url }
          let s :=
            if debugMode then
              { s with maskUrl := payload.mask_url, debugData := some payload }
            else s
          ({ s with step := Step.result }, 1)
      else ({ s with error := some "Render failed" }, 1)

/-- The 'Start Over' handler on the result step (main.ts lines 587-598). -/
def resetWizard (s : WidgetState) : WidgetState :=
  { s with
    step := Step.upload
    selectedStyleId := none
    uploadedImage := none
    maskUrl := none
    debugData := none
    maskEdit := { s.maskEdit with
      enabled := false
      history := []
      historyIndex := -1
      customMaskData := none } }

/-- The 'Edit Area' toggle (main.ts lines 529-541); the view-lock side
effect only touches the DOM. -/
def toggleEditPanel (s : WidgetState) : WidgetState :=
  { s with maskEdit := { s.maskEdit with enabled := !s.maskEdit.enabled } }

/-- The `applyMaskAndRender` function (main.ts lines 752-759): guard on the
canvas, export its contents into `customMaskData`, disable editing, and
re-run `performRender`. -/
def applyMaskAndRender (debugMode : Bool) (resp : FetchResult RenderPayload)
    (s : WidgetState) : WidgetState × Nat :=
  match s.maskEdit.canvas with
  | none => (s, 0)
  | some bmp =>
    performRender debugMode resp
      { s with maskEdit := { s.maskEdit with
          customMaskData := some bmp, enabled := false } }

/-- The condition under which the mask-editing panel is built at all
(main.ts line 483: `if (state.maskUrl)`). -/
def maskEditPanelShown (s : WidgetState) : Bool :=
  s.maskUrl.isSome

/-- One user- or network-driven wizard event, for whole-session statements. -/
inductive WizardOp where
  | fileSelect (file fileUrl : String) (uploadResp : FetchResult String)
  | stylesFetch (resp : FetchResult (List EpoxyStyle))
  | pickSystem (sys : String)
  | pickStyle (id : String)
  | visualize (resp : FetchResult RenderPayload)
  | toggleEdit
  | editOp (op : EditOp)
  | applyMask (resp : FetchResult RenderPayload)
  | reset
  | dismiss

/-- Dispatch of a wizard event to its handler. -/
def applyWizardOp (debugMode : Bool) : WizardOp → WidgetState → WidgetState
  | WizardOp.fileSelect file url resp, s => handleFileSelect file url resp s
  | WizardOp.stylesFetch resp, s => loadStyles resp s
  | WizardOp.pickSystem sys, s => selectSystem sys s
  | WizardOp.pickStyle id, s => selectStyle id s
  | WizardOp.visualize resp, s => (performRender debugMode resp s).1
  | WizardOp.toggleEdit, s => toggleEditPanel s
  | WizardOp.editOp op, s => { s with maskEdit := applyEditOp op s.maskEdit }
  | WizardOp.applyMask resp, s => (applyMaskAndRender debugMode resp s).1
  | WizardOp.reset, s => resetWizard s
  | WizardOp.dismiss, s => dismissError s

/-- Run a sequence of wizard events. -/
def runWizard (debugMode : Bool) : List WizardOp → WidgetState → WidgetState
  | [], s => s
  | op :: ops, s => runWizard debugMode ops (applyWizardOp debugMode op s)

/-- C1 counterexample: invoking `performRender` from the style-select step
with no upload identifier moves `step` to `rendering`, so the claim that the
step does not change is false on the code. -/
theorem performRender_without_upload_id_cex :
    (performRender false (FetchResult.netError "boom")
      { initState with
        step := Step.styles
        selectedStyleId := some "style_a" }).1.step = Step.rendering ∧
    (Step.rendering == Step.styles) = false := by
  decide

/-- C1 (amended): invoking `performRender` with no upload identifier submits
no render request and reports the precondition error
'Upload incomplete. Please wait.' in `lastError`, but the wizard's step does
change: it is set to `rendering` before the guard runs (the error overlay
then covers it, and the wizard never reaches `result`). -/
theorem performRender_without_upload_id (debugMode : Bool)
    (resp : FetchResult RenderPayload) (s : WidgetState)
    (h : s.uploadedImageId = none) :
    (performRender debugMode resp s).1.step = Step.rendering ∧
    (performRender debugMode resp s).2 = 0 ∧
    (performRender debugMode resp s).1.error =
      some "Upload incomplete. Please wait." := by
  simp [performRender, h]

/-- Witness for C1 (amended) at the initial state. -/
theorem performRender_without_upload_id_witness :
    initState.uploadedImageId = none ∧
    ((performRender false (FetchResult.netError "") initState).1.step =
        Step.rendering ∧
      (performRender false (FetchResult.netError "") initState).2 = 0 ∧
      (performRender false (FetchResult.netError "") initState).1.error =
        some "Upload incomplete. Please wait.") :=
  ⟨rfl, performRender_without_upload_id false (FetchResult.netError "")
    initState rfl⟩

/-- C2: with an upload identifier present, `performRender` submits exactly
one render request; a 2xx response with a well-formed payload stores the
result URL and advances to `result`, while a transport error, a non-2xx
status, or a malformed payload stores an error message and leaves the step
at `rendering` (never `result`). -/
theorem performRender_submit_and_outcome (debugMode : Bool)
    (s : WidgetState) (img : String) (resp : FetchResult RenderPayload)
    (h : s.uploadedImageId = some img) :
    (performRender debugMode resp s).2 = 1 ∧
    (match resp with
     | FetchResult.netError m =>
        (performRender debugMode resp s).1.error = some (errMessageOr m) ∧
        (performRender debugMode resp s).1.step = Step.rendering
     | FetchResult.response status body =>
        if isOk status then
          match body with
          | Except.ok p =>
              (performRender debugMode resp s).1.resultUrl =
                some p.result_url ∧
              (performRender debugMode resp s).1.step = Step.result
          | Except.error m =>
              (performRender debugMode resp s).1.error =
                some (errMessageOr m) ∧
              (performRender debugMode resp s).1.step = Step.rendering
        else
          (performRender debugMode resp s).1.error = some "Render failed" ∧
          (performRender debugMode resp s).1.step = Step.rendering) := by
  rcases resp with m | ⟨status, body⟩
  · simp [performRender, h]
  · cases hok : isOk status
    · simp [performRender, h, hok]
    · rcases body with m | p
      · simp [performRender, h, hok]
      · cases debugMode <;> simp [performRender, h, hok]

/-- Witness for C2 at the spec's end-to-end scenario: upload id `img_1`,
a 200 response carrying result URL `https://x/r.jpg`. -/
theorem performRender_submit_and_outcome_witness :
    ({ initState with uploadedImageId := some "img_1" } :
        WidgetState).uploadedImageId = some "img_1" ∧
    (performRender false
      (FetchResult.response 200
        (Except.ok ⟨"https://x/r.jpg", none, none⟩))
      { initState with uploadedImageId := some "img_1" }).2 = 1 ∧
    (performRender false
      (FetchResult.response 200
        (Except.ok ⟨"https://x/r.jpg", none, none⟩))
      { initState with uploadedImageId := some "img_1" }).1.resultUrl =
      some "https://x/r.jpg" ∧
    (performRender false
      (FetchResult.response 200
        (Except.ok ⟨"https://x/r.jpg", none, none⟩))
      { initState with uploadedImageId := some "img_1" }).1.step =
      Step.result := by
  have h := performRender_submit_and_outcome false
    { initState with uploadedImageId := some "img_1" } "img_1"
    (FetchResult.response 200 (Except.ok ⟨"https://x/r.jpg", none, none⟩))
    rfl
  exact ⟨rfl, h.1, (by simpa using h.2 : _ ∧ _).1, (by simpa using h.2 : _ ∧ _).2⟩

/-- C3 counterexample: resetting from a result state leaves
`state.resultUrl` (the stored render result) set, so the claim that reset
clears all step-scoped data including the render result is false on the
code. -/
theorem resetWizard_keeps_resultUrl_cex :
    (resetWizard { initState with
        step := Step.result
        resultUrl := some "https://x/r.jpg" }).resultUrl =
      some "https://x/r.jpg" ∧
    (resetWizard { initState with
        step := Step.result
        resultUrl := some "https://x/r.jpg" }).resultUrl.isSome = true := by
  decide

/-- C3 (amended): 'Start Over' sets the step to `upload` and clears the
style selection, the local image file reference, the mask URL, the debug
payload, and the mask editor session (editing disabled, history emptied,
index back to -1, custom mask dropped), so a subsequent `enable` starts a
fresh history `[b0]` with index 0; the stored render result URL, however,
is left unchanged. -/
theorem resetWizard_behavior (s : WidgetState) (b0 : Bitmap) :
    (resetWizard s).step = Step.upload ∧
    (resetWizard s).selectedStyleId = none ∧
    (resetWizard s).uploadedImage = none ∧
    (resetWizard s).maskUrl = none ∧
    (resetWizard s).debugData = none ∧
    (resetWizard s).maskEdit.enabled = false ∧
    (resetWizard s).maskEdit.history = [] ∧
    (resetWizard s).maskEdit.historyIndex = -1 ∧
    (resetWizard s).maskEdit.customMaskData = none ∧
    (resetWizard s).resultUrl = s.resultUrl ∧
    (initMaskEditor b0 (resetWizard s).maskEdit).history = [b0] ∧
    (initMaskEditor b0 (resetWizard s).maskEdit).historyIndex = 0 := by
  refine ⟨rfl, rfl, rfl, rfl, rfl, rfl, rfl, rfl, rfl, rfl, ?_, ?_⟩ <;>
    simp [resetWizard, initMaskEditor, saveToHistory]

/-- C4: the brush-radius setter stores a value clamped to [5, 80]; in
particular 200 is stored as 80 and 1 as 5. -/
theorem setBrushRadius_clamped (r : Int) (m : MaskEditState) :
    5 ≤ (setBrushRadius r m).brushSize ∧
    (setBrushRadius r m).brushSize ≤ 80 ∧
    (setBrushRadius 200 m).brushSize = 80 ∧
    (setBrushRadius 1 m).brushSize = 5 := by
  simp only [setBrushRadius]
  omega

/-- C8: for a live display rectangle of size (W, H) at offset (left, top)
and a bitmap of size (Bw, Bh), a pointer event at display coordinate (x, y)
relative to the rectangle maps to bitmap coordinate (x*Bw/W, y*Bh/H), with
independent X and Y scale factors computed from the rectangle passed on
this call; both the mouse and the touch handler implement this mapping, and
neither reads any stroke or history state. -/
theorem display_to_bitmap_mapping (bw bh w ht left top x y : ℚ) :
    draw bw bh ⟨left, top, w, ht⟩ (left + x) (top + y) =
      (x * bw / w, y * bh / ht) ∧
    drawTouch bw bh ⟨left, top, w, ht⟩ (left + x) (top + y) =
      (x * bw / w, y * bh / ht) := by
  simp only [draw, drawTouch, Prod.mk.injEq]
  refine ⟨⟨?_, ?_⟩, ?_, ?_⟩ <;> ring

/-- The two style-fetch failure messages start with different characters, so
no status can produce the unauthorized message through the generic branch. -/
theorem styleFetchFailMsg_ne_unauthorized (status : Nat) :
    styleFetchFailMsg status ≠ unauthorizedMessage := by
  intro hEq
  have h : (styleFetchFailMsg status).data.head? =
      unauthorizedMessage.data.head? := by rw [hEq]
  have h1 : (styleFetchFailMsg status).data.head? = some 'F' := rfl
  have h2 : unauthorizedMessage.data.head? = some 'P' := rfl
  rw [h1, h2] at h
  exact absurd h (by decide)

/-- C9: a 401 style-catalog response stores the dedicated preview-token
expiry message in `lastError`, every other non-2xx status stores a message
different from it, and dismissing the resulting error overlay clears the
error and returns the wizard to the upload step. -/
theorem loadStyles_unauthorized_distinct (s : WidgetState) :
    (∀ body, (loadStyles (FetchResult.response 401 body) s).error =
      some unauthorizedMessage) ∧
    (∀ (status : Nat) (body : Except String (List EpoxyStyle)),
      isOk status = false → (status == 401) = false →
      (loadStyles (FetchResult.response status body) s).error ≠
        some unauthorizedMessage) ∧
    (dismissError (loadStyles (FetchResult.response 401 (Except.ok [])) s)).step
      = Step.upload ∧
    (dismissError (loadStyles (FetchResult.response 401 (Except.ok [])) s)).error
      = none := by
  refine ⟨?_, ?_, rfl, rfl⟩
  · intro body
    simp [loadStyles, isOk]
  · intro status body hok h401
    have h401' : status ≠ 401 := by simpa using h401
    simp [loadStyles, hok, h401', styleFetchFailMsg_ne_unauthorized]

/-- Witness for C9 at statuses 401 and 500. -/
theorem loadStyles_unauthorized_distinct_witness :
    (loadStyles (FetchResult.response 401 (Except.ok [])) initState).error =
      some unauthorizedMessage ∧
    isOk 500 = false ∧
    ((500 : Nat) == 401) = false ∧
    (loadStyles (FetchResult.response 500 (Except.ok [])) initState).error ≠
      some unauthorizedMessage ∧
    (dismissError (loadStyles (FetchResult.response 401 (Except.ok []))
      initState)).step = Step.upload ∧
    (dismissError (loadStyles (FetchResult.response 401 (Except.ok []))
      initState)).error = none := by
  have h := loadStyles_unauthorized_distinct initState
  exact ⟨h.1 (Except.ok []), by decide, by decide,
    h.2.1 500 (Except.ok []) (by decide) (by decide), h.2.2.1, h.2.2.2⟩

/-- With debug mode disabled, `performRender` never writes `maskUrl` or
`debugData`: the capture branch (main.ts lines 863-866) is guarded by
`debugMode`. -/
theorem performRender_no_debug_discards (resp : FetchResult RenderPayload)
    (s : WidgetState) :
    (performRender false resp s).1.maskUrl = s.maskUrl ∧
    (performRender false resp s).1.debugData = s.debugData := by
  cases hu : s.uploadedImageId
  · simp [performRender, hu]
  · rcases resp with m | ⟨status, body⟩
    · simp [performRender, hu]
    · cases hok : isOk status
      · simp [performRender, hu, hok]
      · rcases body with m | p <;> simp [performRender, hu, hok]

/-- `handleFileSelect` never touches `maskUrl` or `debugData`. -/
theorem handleFileSelect_preserves_mask (file fileUrl : String)
    (resp : FetchResult String) (s : WidgetState) :
    (handleFileSelect file fileUrl resp s).maskUrl = s.maskUrl ∧
    (handleFileSelect file fileUrl resp s).debugData = s.debugData := by
  rcases resp with m | ⟨status, body⟩
  · simp [handleFileSelect]
  · cases hok : isOk status
    · simp [handleFileSelect, hok]
    · rcases body with m | uid <;> simp [handleFileSelect, hok]

/-- `loadStyles` never touches `maskUrl` or `debugData`. -/
theorem loadStyles_preserves_mask (resp : FetchResult (List EpoxyStyle))
    (s : WidgetState) :
    (loadStyles resp s).maskUrl = s.maskUrl ∧
    (loadStyles resp s).debugData = s.debugData := by
  rcases resp with m | ⟨status, body⟩
  · simp [loadStyles]
  · cases hok : isOk status
    · by_cases h401 : status = 401
      · subst h401
        simp [loadStyles, hok]
      · simp [loadStyles, hok, h401]
    · rcases body with m | styles <;> simp [loadStyles, hok]

/-- Any single wizard event applied with debug mode disabled preserves the
absence of a mask URL and of a debug payload. -/
theorem applyWizardOp_no_debug_inv (op : WizardOp) (s : WidgetState)
    (h1 : s.maskUrl = none) (h2 : s.debugData = none) :
    (applyWizardOp false op s).maskUrl = none ∧
    (applyWizardOp false op s).debugData = none := by
  cases op with
  | fileSelect file url resp =>
    have h := handleFileSelect_preserves_mask file url resp s
    simp [applyWizardOp, h.1, h.2, h1, h2]
  | stylesFetch resp =>
    have h := loadStyles_preserves_mask resp s
    simp [applyWizardOp, h.1, h.2, h1, h2]
  | pickSystem sys => simp [applyWizardOp, selectSystem, h1, h2]
  | pickStyle id => simp [applyWizardOp, selectStyle, h1, h2]
  | visualize resp =>
    have h := performRender_no_debug_discards resp s
    simp [applyWizardOp, h.1, h.2, h1, h2]
  | toggleEdit => simp [applyWizardOp, toggleEditPanel, h1, h2]
  | editOp op => simp [applyWizardOp, h1, h2]
  | applyMask resp =>
    cases hc : s.maskEdit.canvas with
    | none => simp [applyWizardOp, applyMaskAndRender, hc, h1, h2]
    | some bmp =>
      simp only [applyWizardOp, applyMaskAndRender, hc]
      constructor
      · rw [(performRender_no_debug_discards resp _).1]
        simpa using h1
      · rw [(performRender_no_debug_discards resp _).2]
        simpa using h2
  | reset => simp [applyWizardOp, resetWizard]
  | dismiss => simp [applyWizardOp, dismissError, h1, h2]

/-- Sequencing of the single-event invariant. -/
theorem runWizard_no_debug_inv (ops : List WizardOp) (s : WidgetState)
    (h1 : s.maskUrl = none) (h2 : s.debugData = none) :
    (runWizard false ops s).maskUrl = none ∧
    (runWizard false ops s).debugData = none := by
  induction ops generalizing s with
  | nil => exact ⟨h1, h2⟩
  | cons op ops ih =>
    have h := applyWizardOp_no_debug_inv op s h1 h2
    exact ih (applyWizardOp false op s) h.1 h.2

/-- C10: over any sequence of wizard events executed with debug mode
disabled, the mask URL and the debug payload stay unset (every successful
render discards the server's `mask_url` and debug fields), and the
mask-editing panel — built only when `maskUrl` is set — is never offered. -/
theorem mask_editing_requires_debug (ops : List WizardOp) :
    (runWizard false ops initState).maskUrl = none ∧
    (runWizard false ops initState).debugData = none ∧
    maskEditPanelShown (runWizard false ops initState) = false := by
  have h := runWizard_no_debug_inv ops initState rfl rfl
  exact ⟨h.1, h.2, by simp [maskEditPanelShown, h.1]⟩

/-- Saving a snapshot does not change the canvas contents. -/
theorem saveToHistory_canvas (m : MaskEditState) :
    (saveToHistory m).canvas = m.canvas := by
  cases hc : m.canvas <;> simp [saveToHistory, hc]

/-- After a snapshot, the history is non-empty and the index points at the
last entry. -/
theorem saveToHistory_top (m : MaskEditState) (b : Bitmap)
    (hc : m.canvas = some b) :
    (saveToHistory m).historyIndex =
      ((saveToHistory m).history.length : Int) - 1 ∧
    (saveToHistory m).history ≠ [] := by
  simp [saveToHistory, hc]

/-- Immediately after a snapshot, redo has nothing to move to. -/
theorem redoMaskEdit_after_save (m : MaskEditState) (b : Bitmap)
    (hc : m.canvas = some b) :
    redoMaskEdit (saveToHistory m) = saveToHistory m := by
  have h := saveToHistory_top m b hc
  rw [redoMaskEdit, if_neg]
  intro hcond
  have hlt := hcond.1
  rw [h.1] at hlt
  exact absurd hlt (lt_irrefl _)

/-- Undo never removes the canvas. -/
theorem undoMaskEdit_canvas_isSome (m : MaskEditState)
    (h : m.canvas.isSome = true) :
    (undoMaskEdit m).canvas.isSome = true := by
  rw [undoMaskEdit]
  split <;> simp [h]

/-- C6: a completed stroke truncates every snapshot stored after the current
`historyIndex` before appending the new snapshot, and therefore after
`undo(); undo(); stroke(p)` a subsequent `redo()` is a no-op. -/
theorem stroke_truncates_then_redo_noop (m : MaskEditState)
    (f : Bitmap → Bitmap) (h : m.canvas.isSome = true) :
    (∀ (n : MaskEditState) (b : Bitmap), n.canvas = some b →
      (strokeOp f n).history =
        n.history.take (n.historyIndex + 1).toNat ++ [f b]) ∧
    redoMaskEdit (strokeOp f (undoMaskEdit (undoMaskEdit m))) =
      strokeOp f (undoMaskEdit (undoMaskEdit m)) := by
  constructor
  · intro n b hc
    simp [strokeOp, saveToHistory, hc]
  · have h2 := undoMaskEdit_canvas_isSome (undoMaskEdit m)
      (undoMaskEdit_canvas_isSome m h)
    obtain ⟨b, hb⟩ := Option.isSome_iff_exists.mp h2
    rw [strokeOp]
    apply redoMaskEdit_after_save _ (f b)
    simp [hb]

/-- Witness for C6 from a freshly enabled session with seed bitmap `[0]`. -/
theorem stroke_truncates_then_redo_noop_witness :
    (initMaskEditor [0] initialMaskEdit).canvas.isSome = true ∧
    (initMaskEditor [0] initialMaskEdit).canvas = some [0] ∧
    (strokeOp (fun b => 0 :: b) (initMaskEditor [0] initialMaskEdit)).history =
      (initMaskEditor [0] initialMaskEdit).history.take
        ((initMaskEditor [0] initialMaskEdit).historyIndex + 1).toNat ++
        [[0, 0]] ∧
    redoMaskEdit (strokeOp (fun b => 0 :: b)
        (undoMaskEdit (undoMaskEdit (initMaskEditor [0] initialMaskEdit)))) =
      strokeOp (fun b => 0 :: b)
        (undoMaskEdit (undoMaskEdit (initMaskEditor [0] initialMaskEdit))) := by
  have h := stroke_truncates_then_redo_noop (initMaskEditor [0] initialMaskEdit)
    (fun b => 0 :: b) (by decide)
  refine ⟨by decide, by decide, ?_, h.2⟩
  have h1 := h.1 (initMaskEditor [0] initialMaskEdit) [0] (by decide)
  simpa using h1

/-- The history-index invariant: either the session is pristine (empty
history, index -1, as in the initial `state.maskEdit` literal), or the index
is a valid position in the history. -/
def editInv (m : MaskEditState) : Prop :=
  (m.history = [] ∧ m.historyIndex = -1) ∨
  (0 ≤ m.historyIndex ∧ m.historyIndex < (m.history.length : Int))

/-- A snapshot always re-establishes the invariant when a canvas exists. -/
theorem editInv_saveToHistory (m : MaskEditState)
    (h : m.canvas.isSome = true) : editInv (saveToHistory m) := by
  obtain ⟨b, hb⟩ := Option.isSome_iff_exists.mp h
  refine Or.inr ?_
  simp only [saveToHistory, hb]
  simp

/-- Each mask-editor operation preserves the history-index invariant. -/
theorem editInv_applyEditOp (op : EditOp) (m : MaskEditState)
    (h : editInv m) : editInv (applyEditOp op m) := by
  cases op with
  | enable bmp =>
    apply editInv_saveToHistory
    simp
  | stroke f =>
    cases hc : m.canvas with
    | none =>
      simp only [applyEditOp, strokeOp, hc, Option.map_none']
      simpa [saveToHistory, editInv] using h
    | some b =>
      apply editInv_saveToHistory
      simp [hc]
  | undo =>
    simp only [applyEditOp, undoMaskEdit]
    split
    · rename_i hcond
      obtain ⟨hgt, -⟩ := hcond
      rcases h with ⟨hh, hi⟩ | ⟨h0, hlen⟩
      · rw [hi] at hgt
        exact absurd hgt (by norm_num)
      · refine Or.inr ⟨?_, ?_⟩ <;> simp <;> omega
    · exact h
  | redo =>
    simp only [applyEditOp, redoMaskEdit]
    split
    · rename_i hcond
      obtain ⟨hlt, -⟩ := hcond
      rcases h with ⟨hh, hi⟩ | ⟨h0, hlen⟩
      · rw [hh, hi] at hlt
        simp at hlt
      · refine Or.inr ⟨?_, ?_⟩ <;> simp <;> omega
    · exact h
  | reset src =>
    cases hc : m.canvas with
    | none => simpa [applyEditOp, resetMaskToAuto, hc] using h
    | some b =>
      simp only [applyEditOp, resetMaskToAuto, hc]
      apply editInv_saveToHistory
      simp

/-- The invariant is preserved along any operation sequence. -/
theorem editInv_runEditOps (ops : List EditOp) (m : MaskEditState)
    (h : editInv m) : editInv (runEditOps ops m) := by
  induction ops generalizing m with
  | nil => exact h
  | cons op ops ih => exact ih (applyEditOp op m) (editInv_applyEditOp op m h)

/-- C7: for every sequence of mask-editor operations starting from the
initial `state.maskEdit` value, whenever the history is non-empty the index
satisfies 0 ≤ historyIndex < history.length. -/
theorem history_index_invariant (ops : List EditOp)
    (h : (runEditOps ops initialMaskEdit).history ≠ []) :
    0 ≤ (runEditOps ops initialMaskEdit).historyIndex ∧
    (runEditOps ops initialMaskEdit).historyIndex <
      ((runEditOps ops initialMaskEdit).history.length : Int) := by
  have hinv := editInv_runEditOps ops initialMaskEdit (Or.inl ⟨rfl, rfl⟩)
  rcases hinv with ⟨h1, _⟩ | hr
  · exact absurd h1 h
  · exact hr

/-- Witness for C7 on the sequence enable, stroke, undo. -/
theorem history_index_invariant_witness :
    (runEditOps [EditOp.enable [0], EditOp.stroke (fun b => 1 :: b),
      EditOp.undo] initialMaskEdit).history ≠ [] ∧
    (0 ≤ (runEditOps [EditOp.enable [0], EditOp.stroke (fun b => 1 :: b),
        EditOp.undo] initialMaskEdit).historyIndex ∧
      (runEditOps [EditOp.enable [0], EditOp.stroke (fun b => 1 :: b),
        EditOp.undo] initialMaskEdit).historyIndex <
        ((runEditOps [EditOp.enable [0], EditOp.stroke (fun b => 1 :: b),
          EditOp.undo] initialMaskEdit).history.length : Int)) :=
  ⟨by decide, history_index_invariant _ (by decide)⟩

/-- Length of the snapshot list of a stroke sequence. -/
theorem snapList_length (fs : List (Bitmap → Bitmap)) (b : Bitmap) :
    (snapList b fs).length = fs.length + 1 := by
  induction fs generalizing b with
  | nil => simp [snapList]
  | cons f fs ih => simp [snapList, ih]

/-- The i-th snapshot of a stroke sequence is the result of the first i
strokes. -/
theorem snapList_getD (fs : List (Bitmap → Bitmap)) (b : Bitmap) (i : Nat)
    (hi : i ≤ fs.length) :
    (snapList b fs).getD i [] = applyAll (fs.take i) b := by
  induction fs generalizing b i with
  | nil =>
    have h0 : i = 0 := by simpa using hi
    subst h0
    simp [snapList, applyAll]
  | cons f fs ih =>
    cases i with
    | zero => simp [snapList, applyAll]
    | succ j =>
      have := ih (f b) j (by simpa using hi)
      simpa [snapList, applyAll] using this

/-- The JavaScript slice bound after a full history: taking
`historyIndex + 1` entries of a history the index tops keeps it whole. -/
theorem take_full_append (hh : List Bitmap) (b : Bitmap) :
    (hh ++ [b]).take (((hh.length : Int) + 1)).toNat = hh ++ [b] := by
  have h : (((hh.length : Int) + 1)).toNat = (hh ++ [b]).length := by
    simp [List.length_append]
  rw [h, List.take_length]

/-- Running a stroke sequence from a session whose index tops a history
ending in the current canvas: the canvas accumulates the strokes, the
history extends by one snapshot per stroke, and the index stays on top. -/
theorem runStrokes_spec (fs : List (Bitmap → Bitmap)) (m : MaskEditState)
    (b : Bitmap) (hh : List Bitmap) (hc : m.canvas = some b)
    (hhist : m.history = hh ++ [b])
    (hidx : m.historyIndex = (hh.length : Int)) :
    (runStrokes fs m).canvas = some (applyAll fs b) ∧
    (runStrokes fs m).history = hh ++ snapList b fs ∧
    (runStrokes fs m).historyIndex = ((hh.length + fs.length : Nat) : Int) := by
  induction fs generalizing m b hh with
  | nil =>
    refine ⟨?_, ?_, ?_⟩ <;> simp [runStrokes, hc, hhist, hidx, snapList, applyAll]
  | cons f fs ih =>
    have hc' : (strokeOp f m).canvas = some (f b) := by
      rw [strokeOp, saveToHistory_canvas]
      simp [hc]
    have htake : List.take (hh.length + 1) (hh ++ [b]) = hh ++ [b] := by
      apply List.take_of_length_le
      simp
    have hhist' : (strokeOp f m).history = (hh ++ [b]) ++ [f b] := by
      simp [strokeOp, saveToHistory, hc, hhist, hidx, htake]
    have hidx' : (strokeOp f m).historyIndex = (((hh ++ [b]).length : Nat) : Int) := by
      simp [strokeOp, saveToHistory, hc, hhist, hidx, htake, List.length_append]
      omega
    have hres := ih (strokeOp f m) (f b) (hh ++ [b]) hc' hhist' hidx'
    refine ⟨?_, ?_, ?_⟩
    · simpa [runStrokes, applyAll] using hres.1
    · rw [show runStrokes (f :: fs) m = runStrokes fs (strokeOp f m) from rfl,
        hres.2.1]
      simp [snapList]
    · rw [show runStrokes (f :: fs) m = runStrokes fs (strokeOp f m) from rfl,
        hres.2.2]
      simp [List.length_append]
      omega

/-- Undo and then redo on a session whose index tops a fully known history:
undo restores the next-to-top snapshot, redo restores the top one. -/
theorem undo_redo_core (m : MaskEditState) (bk bk1 : Bitmap)
    (hist : List Bitmap) (k : Nat) (h1 : 1 ≤ k)
    (hc : m.canvas = some bk)
    (hh : m.history = hist)
    (hi : m.historyIndex = (k : Int))
    (hlen : hist.length = k + 1)
    (hgd1 : hist.getD (k - 1) [] = bk1)
    (hgd0 : hist.getD k [] = bk) :
    (undoMaskEdit m).canvas = some bk1 ∧
    (redoMaskEdit (undoMaskEdit m)).canvas = some bk := by
  have hcond : 0 < m.historyIndex ∧ m.canvas.isSome := by
    refine ⟨by rw [hi]; exact_mod_cast h1, by simp [hc]⟩
  have hU : undoMaskEdit m =
      { m with
        historyIndex := m.historyIndex - 1
        canvas := some (historyAt m.history (m.historyIndex - 1)) } := by
    rw [undoMaskEdit, if_pos hcond]
  have htn1 : ((k : Int) - 1).toNat = k - 1 := by omega
  have hUc : (undoMaskEdit m).canvas = some bk1 := by
    rw [hU]
    simp [historyAt, hh, hi, htn1]
    simpa [List.getD] using hgd1
  refine ⟨hUc, ?_⟩
  have hUh : (undoMaskEdit m).history = hist := by rw [hU]; simpa using hh
  have hUi : (undoMaskEdit m).historyIndex = (k : Int) - 1 := by
    rw [hU]; simp [hi]
  have hcond2 : (undoMaskEdit m).historyIndex <
      ((undoMaskEdit m).history.length : Int) - 1 ∧
      (undoMaskEdit m).canvas.isSome := by
    refine ⟨?_, by simp [hUc]⟩
    rw [hUi, hUh, hlen]
    push_cast
    omega
  rw [redoMaskEdit, if_pos hcond2]
  have htn0 : ((k : Int) - 1 + 1).toNat = k := by omega
  simp [historyAt, hUh, hUi, htn0]
  simpa [List.getD] using hgd0

/-- C5: starting from the seeded snapshot, after the first k of the strokes
have completed, undo restores the canvas bit-identically to its contents
right after stroke k-1, and an immediately following redo restores the
contents produced by stroke k. -/
theorem undo_redo_inverse (b0 : Bitmap) (fs : List (Bitmap → Bitmap))
    (k : Nat) (hk1 : 1 ≤ k) (hk2 : k ≤ fs.length) :
    (undoMaskEdit (runStrokes (fs.take k)
        (initMaskEditor b0 initialMaskEdit))).canvas =
      (runStrokes (fs.take (k - 1))
        (initMaskEditor b0 initialMaskEdit)).canvas ∧
    (redoMaskEdit (undoMaskEdit (runStrokes (fs.take k)
        (initMaskEditor b0 initialMaskEdit)))).canvas =
      (runStrokes (fs.take k)
        (initMaskEditor b0 initialMaskEdit)).canvas := by
  have hc0 : (initMaskEditor b0 initialMaskEdit).canvas = some b0 := rfl
  have hh0 : (initMaskEditor b0 initialMaskEdit).history = [] ++ [b0] := rfl
  have hi0 : (initMaskEditor b0 initialMaskEdit).historyIndex =
      ((([] : List Bitmap).length : Nat) : Int) := rfl
  have hK := runStrokes_spec (fs.take k) (initMaskEditor b0 initialMaskEdit)
    b0 [] hc0 hh0 hi0
  have hK1 := runStrokes_spec (fs.take (k - 1)) (initMaskEditor b0 initialMaskEdit)
    b0 [] hc0 hh0 hi0
  have hlenk : (fs.take k).length = k := by
    simp [List.length_take]
    omega
  have hidx : (runStrokes (fs.take k)
      (initMaskEditor b0 initialMaskEdit)).historyIndex = (k : Int) := by
    rw [hK.2.2]
    simp [hlenk]
  have hhist : (runStrokes (fs.take k)
      (initMaskEditor b0 initialMaskEdit)).history = snapList b0 (fs.take k) := by
    simpa using hK.2.1
  have hlen : (snapList b0 (fs.take k)).length = k + 1 := by
    rw [snapList_length, hlenk]
  have hgd1 : (snapList b0 (fs.take k)).getD (k - 1) [] =
      applyAll (fs.take (k - 1)) b0 := by
    rw [snapList_getD (fs.take k) b0 (k - 1) (by rw [hlenk]; omega)]
    rw [List.take_take]
    congr 2
    omega
  have hgd0 : (snapList b0 (fs.take k)).getD k [] = applyAll (fs.take k) b0 := by
    rw [snapList_getD (fs.take k) b0 k (by rw [hlenk])]
    rw [List.take_take]
    congr 2
    omega
  have hcore := undo_redo_core
    (runStrokes (fs.take k) (initMaskEditor b0 initialMaskEdit))
    (applyAll (fs.take k) b0) (applyAll (fs.take (k - 1)) b0)
    (snapList b0 (fs.take k)) k hk1 hK.1 hhist hidx hlen hgd1 hgd0
  constructor
  · rw [hcore.1, hK1.1]
  · rw [hcore.2, hK.1]

/-- Witness for C5 with seed [0], two strokes, and k = 1. -/
theorem undo_redo_inverse_witness :
    1 ≤ 1 ∧
    1 ≤ ([fun b => 1 :: b, fun b => 2 :: b] : List (Bitmap → Bitmap)).length ∧
    ((undoMaskEdit (runStrokes
          (([fun b => 1 :: b, fun b => 2 :: b] :
            List (Bitmap → Bitmap)).take 1)
          (initMaskEditor [0] initialMaskEdit))).canvas =
        (runStrokes
          (([fun b => 1 :: b, fun b => 2 :: b] :
            List (Bitmap → Bitmap)).take (1 - 1))
          (initMaskEditor [0] initialMaskEdit)).canvas ∧
      (redoMaskEdit (undoMaskEdit (runStrokes
          (([fun b => 1 :: b, fun b => 2 :: b] :
            List (Bitmap → Bitmap)).take 1)
          (initMaskEditor [0] initialMaskEdit)))).canvas =
        (runStrokes
          (([fun b => 1 :: b, fun b => 2 :: b] :
            List (Bitmap → Bitmap)).take 1)
          (initMaskEditor [0] initialMaskEdit)).canvas) :=
  ⟨by decide, by decide,
    undo_redo_inverse [0] [fun b => 1 :: b, fun b => 2 :: b] 1
      (by decide) (by decide)⟩
